import Mathlib

set_option autoImplicit false

/-!
Verification of the wango WAMP-style pub/sub + RPC server (src/server.go).

The server state (`WS`), its registries and its operations are embedded
shallowly: Go maps become association lists (lookup finds the first entry,
so list order stands in for Go's unspecified map-iteration order), Go
function values become Lean functions, and each handler/dispatch function
of server.go becomes a pure Lean function returning the new state together
with the messages it enqueues.
-/

namespace Wango

/-- Dynamic wire values (Go interface values): null, number, string,
boolean, sequence, mapping. -/
inductive Value where
  | null
  | num (n : Int)
  | str (s : String)
  | bool (b : Bool)
  | seq (xs : List Value)
  | map (xs : List (String × Value))

/-- Modelled from the spec: the error kinds of errors.go (not under src/)
that reach clients inside errorObject payloads, plus handler-returned
errors. -/
inductive ErrKind where
  | rpcNotRegistered
  | subURINotRegistered
  | forbidden
  | notSubscribed
  | handlerErr (msg : String)

/-- Modelled from the spec: the wire envelopes produced by createMessage
(messages.go is not under src/); only the message kind and its fields are
modelled, not the byte-level encoding. -/
inductive Message where
  | callResult (callID : String) (res : Value)
  | callError (callID : String) (err : ErrKind)
  | subscribed (topic : String)
  | subscribeError (topic : String) (err : ErrKind)
  | unsubscribed (topic : String)
  | unsubscribeError (topic : String) (err : ErrKind)
  | event (topic : String) (payload : Value)
  | heartbeat (raw : String)

/-- A connection (Go struct conn): its id and the caller-supplied extra
context. The stream handle and the outbound channel are not part of the
routing state. -/
structure conn where
  id : String
  extra : Value

/-- RPC handler: (connID, uri, args) to result or error (Go RPCHandler). -/
def RPCHandler : Type := String → String → List Value → Except String Value

/-- Subscription admit predicate (Go SubHandler). -/
def SubHandler : Type := String → String → List Value → Bool

/-- Publish filter: (uri, event, extra) to (allow, possibly-modified event)
(Go PubHandler). -/
def PubHandler : Type := String → Value → Value → Bool × Value

/-- Go struct subHandler: admit predicate plus optional publish filter
(a nil Go function value is `none`). -/
structure subHandlerEntry where
  subHandler : SubHandler
  pubHandler : Option PubHandler

/-- A compiled pattern (Go *regexp.Regexp): its source text and its
match predicate, kept opaque (the regexp engine is an external
collaborator). -/
structure Pattern where
  source : String
  MatchString : String → Bool

/-- The dynamic first argument of RegisterRPCHandler (Go interface\x7b\x7d):
a string, a compiled pattern, or a value of any other type. -/
inductive RPCUri where
  | str (uri : String)
  | rgx (p : Pattern)
  | other (v : Value)

/-- First-entry lookup in an association list (Go map read). -/
def alookup {α : Type} : List (String × α) → String → Option α
  | [], _ => none
  | (k, v) :: rest, key => if k = key then some v else alookup rest key

/-- Map write: replace the first entry with this key, or append (Go map
insert). -/
def ainsert {α : Type} : List (String × α) → String → α → List (String × α)
  | [], key, v => [(key, v)]
  | (k, w) :: rest, key, v =>
    if k = key then (key, v) :: rest else (k, w) :: ainsert rest key v

/-- Set insert for a subscriber-id set (Go subscribersMap write of the
constant subscriberExists). -/
def sinsert (l : List String) (id : String) : List String :=
  if id ∈ l then l else l ++ [id]

/-- The server state (Go struct WS). Locks and callbacks carry no routing
state and are omitted. -/
structure WS where
  connections : List (String × conn)
  rpcHandlers : List (String × RPCHandler)
  rpcRgxHandlers : List (Pattern × RPCHandler)
  subHandlers : List (String × subHandlerEntry)
  subscribers : List (String × List String)

/-- Go New(): all registries empty. -/
def New : WS :=
  { connections := []
    rpcHandlers := []
    rpcRgxHandlers := []
    subHandlers := []
    subscribers := [] }

/-- Go Publish lines 96-100: the filter function for a topic, looked up by
exact match in subHandlers; absent registration or nil filter both give
none. -/
def pubHandlerFor (server : WS) (uri : String) : Option PubHandler :=
  match alookup server.subHandlers uri with
  | some handler => handler.pubHandler
  | none => none

/-- Go Publish lines 119-138: the delivery loop over the snapshotted
subscriber ids; a vanished connection or a filter denial skips only the
current id. Returns the (connection id, Event message) pairs enqueued. -/
def publishLoop (server : WS) (uri : String) (event : Value)
    (ph : Option PubHandler) : List String → List (String × Message)
  | [] => []
  | id :: rest =>
    match alookup server.connections id with
    | none => publishLoop server uri event ph rest
    | some c =>
      match ph with
      | some f =>
        match f uri event c.extra with
        | (true, modifiedEvent) =>
          (id, Message.event uri modifiedEvent) :: publishLoop server uri event ph rest
        | (false, _) => publishLoop server uri event ph rest
      | none => (id, Message.event uri event) :: publishLoop server uri event ph rest

/-- Go Publish (lines 95-139): look up the filter, snapshot the subscriber
ids of the topic (returning early when the topic has no set or an empty
set), then deliver per subscriber. -/
def Publish (server : WS) (uri : String) (event : Value) : List (String × Message) :=
  let ph := pubHandlerFor server uri
  match alookup server.subscribers uri with
  | none => []
  | some subs => if subs.isEmpty then [] else publishLoop server uri event ph subs

/-- What Publish does for one snapshotted subscriber id, in isolation:
none when the connection vanished or the filter denies, otherwise the
Event message with the (possibly filter-modified) payload. -/
def deliverOne (server : WS) (uri : String) (event : Value)
    (ph : Option PubHandler) (id : String) : Option Message :=
  match alookup server.connections id with
  | none => none
  | some c =>
    match ph with
    | some f =>
      match f uri event c.extra with
      | (true, modifiedEvent) => some (Message.event uri modifiedEvent)
      | (false, _) => none
    | none => some (Message.event uri event)

theorem publishLoop_eq_filterMap (server : WS) (uri : String) (event : Value)
    (ph : Option PubHandler) (ids : List String) :
    publishLoop server uri event ph ids
      = ids.filterMap
          (fun id => (deliverOne server uri event ph id).map (fun m => (id, m))) := by
  induction ids with
  | nil => rfl
  | cons id rest ih =>
    cases hc : alookup server.connections id with
    | none => simp [publishLoop, deliverOne, hc, ih]
    | some c =>
      cases ph with
      | none => simp [publishLoop, deliverOne, hc, ih]
      | some f =>
        cases hf : f uri event c.extra with
        | mk allow ev =>
          cases allow with
          | true => simp [publishLoop, deliverOne, hc, hf, ih]
          | false => simp [publishLoop, deliverOne, hc, hf, ih]

/-- Modelled from the spec: errors.go is not under src/; the only
registration-time error kind is AlreadyRegistered (ErrHandlerAlreadyRegistered,
possibly wrapped). -/
inductive RegErr where
  | handlerAlreadyRegistered

/-- Go RegisterRPCHandler (lines 60-79): type-switch on the uri argument.
A string goes to the exact table unless present; a pattern goes to the
pattern table unless an equal source text is present; any other type
falls through the switch and returns nil. Returns (error, new state). -/
def RegisterRPCHandler (server : WS) (u : RPCUri) (fn : RPCHandler) :
    Option RegErr × WS :=
  match u with
  | RPCUri.str uri =>
    match alookup server.rpcHandlers uri with
    | some _ => (some RegErr.handlerAlreadyRegistered, server)
    | none =>
      (none, { server with rpcHandlers := ainsert server.rpcHandlers uri fn })
  | RPCUri.rgx rgx =>
    if server.rpcRgxHandlers.any (fun k => k.1.source = rgx.source) then
      (some RegErr.handlerAlreadyRegistered, server)
    else
      (none, { server with rpcRgxHandlers := server.rpcRgxHandlers ++ [(rgx, fn)] })
  | RPCUri.other _ => (none, server)

/-- Go RegisterSubHandler (lines 82-92). -/
def RegisterSubHandler (server : WS) (uri : String) (fnSub : SubHandler)
    (fnPub : Option PubHandler) : Option RegErr × WS :=
  match alookup server.subHandlers uri with
  | some _ => (some RegErr.handlerAlreadyRegistered, server)
  | none =>
    (none, { server with
              subHandlers := ainsert server.subHandlers uri ⟨fnSub, fnPub⟩ })

/-- Go handleRPCCall lines 197-207: exact table first; only when the uri
is absent there, scan the pattern handlers and take the first whose
pattern matches the uri. -/
def resolveRPC (server : WS) (uri : String) : Option RPCHandler :=
  match alookup server.rpcHandlers uri with
  | some handler => some handler
  | none =>
    (server.rpcRgxHandlers.find? (fun k => k.1.MatchString uri)).map (fun k => k.2)

/-- Modelled from the spec: the parsed form of a Call frame as produced by
parseWampMessage (messages.go is not under src/): correlation id, uri,
positional arguments. -/
structure wampMsg where
  CallID : String
  URI : String
  Args : List Value

/-- Go handleRPCCall (lines 190-224), after a successful parse: resolve
the handler, invoke it, and send exactly one correlated response to the
calling connection. -/
def handleRPCCall (server : WS) (c : conn) (m : wampMsg) : List Message :=
  match resolveRPC server m.URI with
  | some handler =>
    match handler c.id m.URI m.Args with
    | Except.error e => [Message.callError m.CallID (ErrKind.handlerErr e)]
    | Except.ok res => [Message.callResult m.CallID res]
  | none => [Message.callError m.CallID ErrKind.rpcNotRegistered]

/-- Go strings.HasPrefix: p is a textual prefix of s, tested on the
decoded character sequence (for valid UTF-8 this agrees with Go's
byte-wise test). -/
def hasPfx (p s : String) : Bool := p.data.isPrefixOf s.data

/-- The subscriber set of a topic, the empty set when absent (Go lines
239-241: the set is created lazily before the member is added). -/
def subscribersOf (server : WS) (topic : String) : List String :=
  match alookup server.subscribers topic with
  | some s => s
  | none => []

/-- Go handleSubscribe lines 236-253: scan the registered prefixes in
iteration order for the first that is a textual prefix of the requested
topic; the admit predicate of that first match alone decides. Returns the
new state and the one response sent to the subscriber. -/
def subscribeScan (server : WS) (c : conn) (topic : String) (args : List Value) :
    List (String × subHandlerEntry) → WS × Message
  | [] => (server, Message.subscribeError topic ErrKind.subURINotRegistered)
  | (uri, handler) :: rest =>
    if hasPfx uri topic then
      if handler.subHandler c.id topic args then
        ({ server with
            subscribers := ainsert server.subscribers topic
              (sinsert (subscribersOf server topic) c.id) },
         Message.subscribed topic)
      else (server, Message.subscribeError topic ErrKind.forbidden)
    else subscribeScan server c topic args rest

/-- Go handleSubscribe (lines 226-254), after a successful parse. -/
def handleSubscribe (server : WS) (c : conn) (topic : String)
    (args : List Value) : WS × Message :=
  subscribeScan server c topic args server.subHandlers

/-- Go handleUnSubscribe lines 266-280: scan the subscriber sets for the
entry whose topic equals the request; remove the member when present,
otherwise report NotSubscribed; report SubscriptionURINotRegistered when
no set exists. -/
def unSubscribeScan (connId : String) (topic : String) :
    List (String × List String) → List (String × List String) × Message
  | [] => ([], Message.unsubscribeError topic ErrKind.subURINotRegistered)
  | (uri, subs) :: rest =>
    if uri = topic then
      if connId ∈ subs then
        ((uri, subs.filter (fun x => x ≠ connId)) :: rest,
         Message.unsubscribed topic)
      else ((uri, subs) :: rest,
            Message.unsubscribeError topic ErrKind.notSubscribed)
    else
      let r := unSubscribeScan connId topic rest
      ((uri, subs) :: r.1, r.2)

/-- Go handleUnSubscribe (lines 256-281), after a successful parse. -/
def handleUnSubscribe (server : WS) (c : conn) (topic : String) : WS × Message :=
  let r := unSubscribeScan c.id topic server.subscribers
  ({ server with subscribers := r.1 }, r.2)

/-- Go deleteConnection (lines 324-333): remove the id from the connection
map and from every topic's subscriber set. -/
def deleteConnection (server : WS) (id : String) : WS :=
  { server with
    connections := server.connections.filter (fun p => p.1 ≠ id)
    subscribers := server.subscribers.map (fun p => (p.1, p.2.filter (fun x => x ≠ id))) }

/-- Go handlePublish (lines 287-298), after a successful parse: the event
is the first positional argument, null when absent. -/
def handlePublish (server : WS) (topic : String) (args : List Value) :
    List (String × Message) :=
  Publish server topic (args.headD Value.null)

/-- The routable content of one inbound frame, as the switch of the
receive loop (lines 168-186) distinguishes it. passive covers the
recognized-but-ignored kinds (prefix, call result, call error, event,
subscribed notifications). -/
inductive Frame where
  | call (m : wampMsg)
  | subscribeMsg (topic : String) (args : List Value)
  | unsubscribeMsg (topic : String)
  | publishMsg (topic : String) (args : List Value)
  | heartbeat
  | passive

/-- Modelled from the spec: the outcome of parseMessage (messages.go is
not under src/) on one raw frame — a decode failure yields no dispatchable
message kind, so the frame is dropped. -/
inductive ParseResult where
  | failure
  | parsed (f : Frame)

/-- One iteration of the receive loop (lines 155-187) on an already-read
frame: dispatch per message kind; a decode failure dispatches nothing.
Returns the new state and all (connection id, message) pairs enqueued. -/
def receiveStep (server : WS) (c : conn) (data : String) (pr : ParseResult) :
    WS × List (String × Message) :=
  match pr with
  | ParseResult.failure => (server, [])
  | ParseResult.parsed f =>
    match f with
    | Frame.call m => (server, (handleRPCCall server c m).map (fun msg => (c.id, msg)))
    | Frame.subscribeMsg topic args =>
      let r := handleSubscribe server c topic args
      (r.1, [(c.id, r.2)])
    | Frame.unsubscribeMsg topic =>
      let r := handleUnSubscribe server c topic
      (r.1, [(c.id, r.2)])
    | Frame.publishMsg topic args => (server, handlePublish server topic args)
    | Frame.heartbeat => (server, [(c.id, Message.heartbeat data)])
    | Frame.passive => (server, [])

/-- The receive loop over a finite inbound sequence of (raw frame, parse
outcome) pairs; the loop leaves only on read error or end of stream, never
because of a frame's content. -/
def receiveLoop (server : WS) (c : conn) :
    List (String × ParseResult) → WS × List (String × Message)
  | [] => (server, [])
  | (data, pr) :: rest =>
    let r := receiveStep server c data pr
    let r' := receiveLoop r.1 c rest
    (r'.1, r.2 ++ r'.2)

/-! Concrete handlers and a concrete server state, used to evaluate the
theorems on explicit inputs. -/

/-- A handler that answers 3. -/
def hAdd : RPCHandler := fun _ _ _ => Except.ok (Value.num 3)

/-- A handler that fails. -/
def hBoom : RPCHandler := fun _ _ _ => Except.error ("boom")

/-- The handler behind the demo pattern. -/
def hPat : RPCHandler := fun _ _ _ => Except.ok Value.null

/-- A pattern whose source is calc and that matches every uri starting
with calc. -/
def patCalc : Pattern :=
  { source := "calc", MatchString := fun s => hasPfx ("calc") s }

/-- A second pattern with the same source text. -/
def patCalc2 : Pattern :=
  { source := "calc", MatchString := fun _ => false }

/-- An admit predicate that always admits. -/
def admitAll : SubHandler := fun _ _ _ => true

/-- An admit predicate that always refuses. -/
def admitNone : SubHandler := fun _ _ _ => false

/-- A publish filter that allows only connections whose extra context is
the string vip, wrapping the event for them. -/
def vipOnly : PubHandler := fun _ event extra =>
  match extra with
  | Value.str s => if s = "vip" then (true, Value.seq [event]) else (false, event)
  | _ => (false, event)

/-- A connection with no extra context. -/
def c1 : conn := { id := "c1", extra := Value.null }

/-- A connection with vip extra context. -/
def c2 : conn := { id := "c2", extra := Value.str ("vip") }

/-- A populated server: two live connections, one exact and one pattern
RPC handler, three topic prefixes, one topic with a ghost subscriber id
that has no live connection, and one topic with an empty set. -/
def demoWS : WS :=
  { connections := [("c1", c1), ("c2", c2)]
    rpcHandlers := [("calc.add", hAdd), ("calc.boom", hBoom)]
    rpcRgxHandlers := [(patCalc, hPat)]
    subHandlers :=
      [("news.", ⟨admitAll, some vipOnly⟩), ("priv.", ⟨admitNone, none⟩),
       ("open.", ⟨admitAll, none⟩)]
    subscribers := [("news.", ["c1", "ghost", "c2"]), ("open.chat", [])] }

/-- A parsed Call frame for the exact uri. -/
def callAdd : wampMsg := { CallID := "id1", URI := "calc.add", Args := [] }

/-! Helper lemmas about the association-list primitives and the scans. -/

theorem alookup_ainsert {α : Type} (l : List (String × α)) (k : String) (v : α)
    (t : String) :
    alookup (ainsert l k v) t = if k = t then some v else alookup l t := by
  induction l with
  | nil => rfl
  | cons p rest ih =>
    obtain ⟨a, b⟩ := p
    by_cases hak : a = k
    · subst hak
      simp only [ainsert, if_pos rfl, alookup]
      by_cases hat : a = t <;> simp [hat]
    · simp only [ainsert, if_neg hak, alookup]
      by_cases hat : a = t
      · have hkt : ¬ k = t := fun hh => hak (hat.trans hh.symm)
        simp [alookup, hat, hkt]
      · by_cases hkt : k = t
        · subst hkt
          simp [alookup, hat, ih]
        · simp [alookup, hat, hkt, ih]

theorem alookup_filter_ne {β : Type} (l : List (String × β)) (id : String) :
    alookup (l.filter (fun p => p.1 ≠ id)) id = none := by
  induction l with
  | nil => rfl
  | cons p rest ih =>
    obtain ⟨a, b⟩ := p
    simp only [List.filter_cons, ne_eq, decide_not] at ih ⊢
    by_cases ha : a = id
    · simpa [ha] using ih
    · simp [ha, alookup, ih]

theorem alookup_map_filter (l : List (String × List String)) (q : String → Bool)
    (t : String) :
    alookup (l.map (fun p => (p.1, p.2.filter q))) t
      = (alookup l t).map (fun s => s.filter q) := by
  induction l with
  | nil => rfl
  | cons p rest ih =>
    obtain ⟨a, b⟩ := p
    by_cases ha : a = t
    · subst ha
      simp [alookup]
    · simp [alookup, ha, ih]

theorem unSubscribeScan_found_mem (cid topic : String)
    (l : List (String × List String)) (subs : List String)
    (h : alookup l topic = some subs) (hm : cid ∈ subs) :
    (unSubscribeScan cid topic l).2 = Message.unsubscribed topic
    ∧ alookup (unSubscribeScan cid topic l).1 topic
        = some (subs.filter (fun x => x ≠ cid)) := by
  induction l with
  | nil => cases h
  | cons p rest ih =>
    obtain ⟨a, b⟩ := p
    by_cases ha : a = topic
    · subst ha
      simp only [alookup, if_true, eq_self_iff_true, if_pos] at h
      cases h
      simp [unSubscribeScan, hm, alookup]
    · simp only [alookup, if_neg ha] at h
      have hr := ih h
      simp only [unSubscribeScan, if_neg ha]
      exact ⟨hr.1, by simp [alookup, ha, hr.2]⟩

theorem unSubscribeScan_found_not_mem (cid topic : String)
    (l : List (String × List String)) (subs : List String)
    (h : alookup l topic = some subs) (hm : cid ∉ subs) :
    unSubscribeScan cid topic l
      = (l, Message.unsubscribeError topic ErrKind.notSubscribed) := by
  induction l with
  | nil => cases h
  | cons p rest ih =>
    obtain ⟨a, b⟩ := p
    by_cases ha : a = topic
    · subst ha
      simp only [alookup, if_true, eq_self_iff_true, if_pos] at h
      cases h
      simp [unSubscribeScan, hm]
    · simp only [alookup, if_neg ha] at h
      simp [unSubscribeScan, ha, ih h]

theorem unSubscribeScan_none (cid topic : String)
    (l : List (String × List String))
    (h : alookup l topic = none) :
    unSubscribeScan cid topic l
      = (l, Message.unsubscribeError topic ErrKind.subURINotRegistered) := by
  induction l with
  | nil => rfl
  | cons p rest ih =>
    obtain ⟨a, b⟩ := p
    by_cases ha : a = topic
    · subst ha
      simp [alookup] at h
    · simp only [alookup, if_neg ha] at h
      simp [unSubscribeScan, ha, ih h]

theorem unSubscribeScan_keeps_keys (cid topic : String)
    (l : List (String × List String)) (t : String) (s : List String)
    (h : alookup l t = some s) :
    ∃ s', alookup (unSubscribeScan cid topic l).1 t = some s' := by
  induction l with
  | nil => cases h
  | cons p rest ih =>
    obtain ⟨a, b⟩ := p
    simp only [unSubscribeScan]
    by_cases ha : a = topic
    · rw [if_pos ha]
      by_cases hmem : cid ∈ b
      · rw [if_pos hmem]
        by_cases hat : a = t
        · exact ⟨b.filter (fun x => x ≠ cid), by simp [alookup, if_pos hat]⟩
        · have hr : alookup rest t = some s := by
            simpa [alookup, if_neg hat] using h
          exact ⟨s, by simp [alookup, if_neg hat, hr]⟩
      · rw [if_neg hmem]
        exact ⟨s, h⟩
    · rw [if_neg ha]
      by_cases hat : a = t
      · exact ⟨b, by simp [alookup, if_pos hat]⟩
      · have hr : alookup rest t = some s := by
          simpa [alookup, if_neg hat] using h
        obtain ⟨s', hs'⟩ := ih hr
        exact ⟨s', by simp [alookup, if_neg hat, hs']⟩

theorem subscribeScan_no_match (server : WS) (c : conn) (topic : String)
    (args : List Value) (hs : List (String × subHandlerEntry))
    (h : hs.find? (fun p => hasPfx p.1 topic) = none) :
    subscribeScan server c topic args hs
      = (server, Message.subscribeError topic ErrKind.subURINotRegistered) := by
  induction hs with
  | nil => rfl
  | cons p rest ih =>
    obtain ⟨u, e⟩ := p
    cases hp : hasPfx u topic with
    | true =>
      rw [List.find?_cons_of_pos _ (by simpa using hp)] at h
      cases h
    | false =>
      rw [List.find?_cons_of_neg _ (by simpa using hp)] at h
      simp only [subscribeScan, hp]
      simpa using ih h

theorem subscribeScan_first_match (server : WS) (c : conn) (topic : String)
    (args : List Value) (hs : List (String × subHandlerEntry)) (uri : String)
    (handler : subHandlerEntry)
    (h : hs.find? (fun p => hasPfx p.1 topic) = some (uri, handler)) :
    subscribeScan server c topic args hs
      = if handler.subHandler c.id topic args then
          ({ server with
              subscribers := ainsert server.subscribers topic
                (sinsert (subscribersOf server topic) c.id) },
           Message.subscribed topic)
        else (server, Message.subscribeError topic ErrKind.forbidden) := by
  induction hs with
  | nil => cases h
  | cons p rest ih =>
    obtain ⟨u, e⟩ := p
    cases hp : hasPfx u topic with
    | true =>
      rw [List.find?_cons_of_pos _ (by simpa using hp)] at h
      simp only [Option.some.injEq, Prod.mk.injEq] at h
      obtain ⟨h1, h2⟩ := h
      subst h1
      subst h2
      simp [subscribeScan, hp]
    | false =>
      rw [List.find?_cons_of_neg _ (by simpa using hp)] at h
      simp only [subscribeScan, hp]
      simpa using ih h

theorem subscribeScan_subscribers (server : WS) (c : conn) (topic : String)
    (args : List Value) (hs : List (String × subHandlerEntry)) :
    (subscribeScan server c topic args hs).1.subscribers = server.subscribers
    ∨ (subscribeScan server c topic args hs).1.subscribers
        = ainsert server.subscribers topic
            (sinsert (subscribersOf server topic) c.id) := by
  induction hs with
  | nil => exact Or.inl rfl
  | cons p rest ih =>
    obtain ⟨u, e⟩ := p
    cases hp : hasPfx u topic with
    | false =>
      simp only [subscribeScan, hp]
      simpa using ih
    | true =>
      cases hs2 : e.subHandler c.id topic args with
      | true => exact Or.inr (by simp [subscribeScan, hp, hs2])
      | false => exact Or.inl (by simp [subscribeScan, hp, hs2])

theorem publish_mem_subscribers (server : WS) (uri : String) (event : Value)
    (id : String) (m : Message)
    (h : (id, m) ∈ Publish server uri event) :
    ∃ subs, alookup server.subscribers uri = some subs ∧ id ∈ subs := by
  simp only [Publish] at h
  cases hsub : alookup server.subscribers uri with
  | none => simp [hsub] at h
  | some subs =>
    simp only [hsub] at h
    refine ⟨subs, rfl, ?_⟩
    by_cases he : subs.isEmpty
    · rw [if_pos he] at h; cases h
    · rw [if_neg he, publishLoop_eq_filterMap] at h
      rw [List.mem_filterMap] at h
      obtain ⟨a, ha, hmap⟩ := h
      rw [Option.map_eq_some'] at hmap
      obtain ⟨m₀, _, hpair⟩ := hmap
      cases hpair
      exact ha

/-! The claim theorems. -/

/-- C1: Publish fan-out is per-subscriber independent: with the topic's
subscriber set snapshotted, the delivered messages are exactly the
per-id outcomes of deliverOne, computed for each snapshotted id in
isolation — an id whose connection vanished or whose filter call
disallows contributes nothing, and every other snapshotted id still
receives its Event message with the (possibly filter-modified) payload. -/
theorem publish_fanout_per_subscriber (server : WS) (uri : String)
    (event : Value) (subs : List String)
    (h : alookup server.subscribers uri = some subs) :
    Publish server uri event
      = subs.filterMap
          (fun id =>
            (deliverOne server uri event (pubHandlerFor server uri) id).map
              (fun m => (id, m))) := by
  simp only [Publish, h]
  cases subs with
  | nil => rfl
  | cons a rest =>
    rw [if_neg (by simp), publishLoop_eq_filterMap]

theorem publish_fanout_per_subscriber_witness :
    alookup demoWS.subscribers ("news.") = some (["c1", "ghost", "c2"])
    ∧ Publish demoWS ("news.") (Value.num 7)
        = (["c1", "ghost", "c2"]).filterMap
            (fun id =>
              (deliverOne demoWS ("news.") (Value.num 7)
                  (pubHandlerFor demoWS ("news.")) id).map
                (fun m => (id, m))) :=
  ⟨rfl,
   publish_fanout_per_subscriber demoWS ("news.") (Value.num 7)
     (["c1", "ghost", "c2"]) rfl⟩

/-- C2: subscribe scans the registered prefixes in iteration order: no
prefix of the topic registered gives SubscribeError with
SubscriptionURINotRegistered and an unchanged state; otherwise the first
matching prefix's admit predicate decides — true adds (topic, connId) to
the lazily-created subscriber set and answers Subscribed, false answers
SubscribeError with Forbidden and changes nothing. -/
theorem subscribe_first_prefix_decides (server : WS) (c : conn)
    (topic : String) (args : List Value) :
    (server.subHandlers.find? (fun p => hasPfx p.1 topic) = none →
      handleSubscribe server c topic args
        = (server, Message.subscribeError topic ErrKind.subURINotRegistered))
    ∧ (∀ uri handler,
        server.subHandlers.find? (fun p => hasPfx p.1 topic)
            = some (uri, handler) →
        (handler.subHandler c.id topic args = true →
          handleSubscribe server c topic args
            = ({ server with
                  subscribers := ainsert server.subscribers topic
                    (sinsert (subscribersOf server topic) c.id) },
               Message.subscribed topic))
        ∧ (handler.subHandler c.id topic args = false →
          handleSubscribe server c topic args
            = (server, Message.subscribeError topic ErrKind.forbidden))) := by
  refine ⟨fun h => subscribeScan_no_match server c topic args _ h, ?_⟩
  intro uri handler h
  constructor
  · intro ht
    simp only [handleSubscribe]
    rw [subscribeScan_first_match server c topic args _ uri handler h, if_pos ht]
  · intro hf
    simp only [handleSubscribe]
    rw [subscribeScan_first_match server c topic args _ uri handler h,
        if_neg (by simp [hf])]

theorem subscribe_first_prefix_decides_witness :
    demoWS.subHandlers.find? (fun p => hasPfx p.1 ("news.tech"))
        = some (("news."), ⟨admitAll, some vipOnly⟩)
    ∧ admitAll c1.id ("news.tech") [] = true
    ∧ handleSubscribe demoWS c1 ("news.tech") []
        = ({ demoWS with
              subscribers := ainsert demoWS.subscribers ("news.tech")
                (sinsert (subscribersOf demoWS ("news.tech")) c1.id) },
           Message.subscribed ("news.tech")) :=
  ⟨rfl, rfl,
   ((subscribe_first_prefix_decides demoWS c1 ("news.tech") []).2
       ("news.") ⟨admitAll, some vipOnly⟩ rfl).1 rfl⟩

/-- C3: unsubscribe distinguishes three cases: a set exists and holds the
id — the membership is removed and the answer is Unsubscribed; a set
exists without the id — UnsubscribeError with NotSubscribed and no
change; no set at all — UnsubscribeError with
SubscriptionURINotRegistered; and the last two responses are distinct
messages. -/
theorem unsubscribe_three_cases (server : WS) (c : conn) (topic : String) :
    (∀ subs, alookup server.subscribers topic = some subs → c.id ∈ subs →
      (handleUnSubscribe server c topic).2 = Message.unsubscribed topic
      ∧ alookup (handleUnSubscribe server c topic).1.subscribers topic
          = some (subs.filter (fun x => x ≠ c.id))
      ∧ c.id ∉ subs.filter (fun x => x ≠ c.id))
    ∧ (∀ subs, alookup server.subscribers topic = some subs → c.id ∉ subs →
      handleUnSubscribe server c topic
        = (server, Message.unsubscribeError topic ErrKind.notSubscribed))
    ∧ (alookup server.subscribers topic = none →
      handleUnSubscribe server c topic
        = (server, Message.unsubscribeError topic ErrKind.subURINotRegistered))
    ∧ Message.unsubscribeError topic ErrKind.notSubscribed
        ≠ Message.unsubscribeError topic ErrKind.subURINotRegistered := by
  refine ⟨?_, ?_, ?_, by simp⟩
  · intro subs h hm
    have h1 := unSubscribeScan_found_mem c.id topic server.subscribers subs h hm
    refine ⟨?_, ?_, ?_⟩
    · simpa [handleUnSubscribe] using h1.1
    · simpa [handleUnSubscribe] using h1.2
    · simp
  · intro subs h hm
    have h1 := unSubscribeScan_found_not_mem c.id topic server.subscribers subs h hm
    simp [handleUnSubscribe, h1]
  · intro h
    have h1 := unSubscribeScan_none c.id topic server.subscribers h
    simp [handleUnSubscribe, h1]

theorem unsubscribe_three_cases_witness :
    alookup demoWS.subscribers ("news.") = some (["c1", "ghost", "c2"])
    ∧ c1.id ∈ (["c1", "ghost", "c2"] : List String)
    ∧ (handleUnSubscribe demoWS c1 ("news.")).2 = Message.unsubscribed ("news.") :=
  ⟨rfl, by simp [c1],
   ((unsubscribe_three_cases demoWS c1 ("news.")).1
       (["c1", "ghost", "c2"]) rfl (by simp [c1])).1⟩

/-- C4: RPC resolution prefers the exact-string table: an exact entry for
the uri is the resolved handler, and the pattern handlers are scanned
(first match in iteration order) only when no exact entry exists. -/
theorem rpc_exact_match_wins (server : WS) (uri : String) :
    (∀ handler, alookup server.rpcHandlers uri = some handler →
      resolveRPC server uri = some handler)
    ∧ (alookup server.rpcHandlers uri = none →
      resolveRPC server uri
        = (server.rpcRgxHandlers.find? (fun k => k.1.MatchString uri)).map
            (fun k => k.2)) := by
  constructor
  · intro handler h
    simp [resolveRPC, h]
  · intro h
    simp [resolveRPC, h]

theorem rpc_exact_match_wins_witness :
    alookup demoWS.rpcHandlers ("calc.add") = some hAdd
    ∧ patCalc.MatchString ("calc.add") = true
    ∧ resolveRPC demoWS ("calc.add") = some hAdd :=
  ⟨rfl, rfl, (rpc_exact_match_wins demoWS ("calc.add")).1 hAdd rfl⟩

/-- C5: every successfully-parsed Call frame yields exactly one correlated
response: a CallResult with the handler's result on success, a CallError
with the handler's error on failure, and a CallError with
RPCNotRegistered when no exact or pattern handler matches. -/
theorem call_exactly_one_response (server : WS) (c : conn) (m : wampMsg) :
    (handleRPCCall server c m).length = 1
    ∧ (∀ handler res, resolveRPC server m.URI = some handler →
        handler c.id m.URI m.Args = Except.ok res →
        handleRPCCall server c m = [Message.callResult m.CallID res])
    ∧ (∀ handler e, resolveRPC server m.URI = some handler →
        handler c.id m.URI m.Args = Except.error e →
        handleRPCCall server c m
          = [Message.callError m.CallID (ErrKind.handlerErr e)])
    ∧ (resolveRPC server m.URI = none →
        handleRPCCall server c m
          = [Message.callError m.CallID ErrKind.rpcNotRegistered]) := by
  refine ⟨?_, ?_, ?_, ?_⟩
  · simp only [handleRPCCall]
    cases hr : resolveRPC server m.URI with
    | none => rfl
    | some handler =>
      cases hh : handler c.id m.URI m.Args with
      | error e => simp [hh]
      | ok res => simp [hh]
  · intro handler res h1 h2
    simp [handleRPCCall, h1, h2]
  · intro handler e h1 h2
    simp [handleRPCCall, h1, h2]
  · intro h
    simp [handleRPCCall, h]

theorem call_exactly_one_response_witness :
    resolveRPC demoWS callAdd.URI = some hAdd
    ∧ hAdd c1.id callAdd.URI callAdd.Args = Except.ok (Value.num 3)
    ∧ handleRPCCall demoWS c1 callAdd
        = [Message.callResult callAdd.CallID (Value.num 3)] :=
  ⟨rfl, rfl,
   (call_exactly_one_response demoWS c1 callAdd).2.1 hAdd (Value.num 3) rfl rfl⟩

/-- C6: duplicate registration fails without overwrite: re-registering an
already-registered exact uri, pattern source text, or subscription prefix
answers AlreadyRegistered and returns the registry state unchanged, so
the originally stored handler is still the one looked up. -/
theorem register_duplicate_no_overwrite (server : WS) :
    (∀ uri fn h₀, alookup server.rpcHandlers uri = some h₀ →
      RegisterRPCHandler server (RPCUri.str uri) fn
          = (some RegErr.handlerAlreadyRegistered, server)
      ∧ alookup (RegisterRPCHandler server (RPCUri.str uri) fn).2.rpcHandlers uri
          = some h₀)
    ∧ (∀ rgx fn,
        server.rpcRgxHandlers.any (fun k => k.1.source = rgx.source) = true →
        RegisterRPCHandler server (RPCUri.rgx rgx) fn
          = (some RegErr.handlerAlreadyRegistered, server))
    ∧ (∀ uri fnSub fnPub e₀, alookup server.subHandlers uri = some e₀ →
      RegisterSubHandler server uri fnSub fnPub
          = (some RegErr.handlerAlreadyRegistered, server)
      ∧ alookup (RegisterSubHandler server uri fnSub fnPub).2.subHandlers uri
          = some e₀) := by
  refine ⟨?_, ?_, ?_⟩
  · intro uri fn h₀ h
    constructor
    · simp [RegisterRPCHandler, h]
    · simp [RegisterRPCHandler, h]
  · intro rgx fn h
    simp [RegisterRPCHandler, h]
  · intro uri fnSub fnPub e₀ h
    constructor
    · simp [RegisterSubHandler, h]
    · simp [RegisterSubHandler, h]

theorem register_duplicate_no_overwrite_witness :
    alookup demoWS.rpcHandlers ("calc.add") = some hAdd
    ∧ RegisterRPCHandler demoWS (RPCUri.str ("calc.add")) hBoom
        = (some RegErr.handlerAlreadyRegistered, demoWS)
    ∧ alookup
        (RegisterRPCHandler demoWS (RPCUri.str ("calc.add")) hBoom).2.rpcHandlers
        ("calc.add") = some hAdd :=
  ⟨rfl,
   ((register_duplicate_no_overwrite demoWS).1 ("calc.add") hBoom hAdd rfl).1,
   ((register_duplicate_no_overwrite demoWS).1 ("calc.add") hBoom hAdd rfl).2⟩

/-- C7: connection teardown purges completely: after deleteConnection the
id is absent from the connection map and from every topic's subscriber
set, and no publish performed on the resulting state delivers anything to
that id. -/
theorem teardown_purges_completely (server : WS) (id : String) :
    alookup (deleteConnection server id).connections id = none
    ∧ (∀ topic subs,
        alookup (deleteConnection server id).subscribers topic = some subs →
        id ∉ subs)
    ∧ (∀ uri event m, (id, m) ∉ Publish (deleteConnection server id) uri event) := by
  refine ⟨?_, ?_, ?_⟩
  · exact alookup_filter_ne server.connections id
  · intro topic subs h
    simp only [deleteConnection] at h
    rw [alookup_map_filter, Option.map_eq_some'] at h
    obtain ⟨s₀, _, hs⟩ := h
    subst hs
    intro hm
    rw [List.mem_filter] at hm
    simp at hm
  · intro uri event m hmem
    obtain ⟨subs, hsub, hid⟩ := publish_mem_subscribers _ _ _ _ _ hmem
    simp only [deleteConnection] at hsub
    rw [alookup_map_filter, Option.map_eq_some'] at hsub
    obtain ⟨s₀, _, hs⟩ := hsub
    subst hs
    rw [List.mem_filter] at hid
    simp at hid

theorem teardown_purges_completely_witness :
    alookup (deleteConnection demoWS ("c1")).subscribers ("news.")
        = some (["ghost", "c2"])
    ∧ ("c1") ∉ (["ghost", "c2"] : List String) :=
  ⟨rfl, (teardown_purges_completely demoWS ("c1")).2.1 ("news.")
      (["ghost", "c2"]) rfl⟩

/-- C8: a frame whose decode fails is dropped: that iteration of the
receive loop changes no state, sends nothing and dispatches nothing, and
the loop goes on to the following frames exactly as if the bad frame had
never arrived. -/
theorem decode_failure_drops_frame (server : WS) (c : conn) (data : String)
    (pre post : List (String × ParseResult)) :
    receiveStep server c data ParseResult.failure = (server, [])
    ∧ receiveLoop server c (pre ++ (data, ParseResult.failure) :: post)
        = receiveLoop server c (pre ++ post) := by
  constructor
  · rfl
  · induction pre generalizing server with
    | nil => simp [receiveLoop, receiveStep]
    | cons p rest ih => simp [receiveLoop, ih]

/-- C9: RegisterRPCHandler called with an argument that is neither a
string nor a compiled pattern falls through the type switch: it answers
nil (success) and registers nothing, leaving the whole state unchanged. -/
theorem register_other_type_silent_noop (server : WS) (v : Value)
    (fn : RPCHandler) :
    RegisterRPCHandler server (RPCUri.other v) fn = (none, server) := rfl

/-- C10: a subscriber set, once created for a concrete topic, is never
removed from the subscribers map: subscribe, unsubscribe and connection
teardown preserve every existing topic key (unsubscribe removes only the
member, teardown only ids), and an unsubscribe on a present set that
lacks the id answers NotSubscribed, never SubscriptionURINotRegistered. -/
theorem subscriber_set_never_removed (server : WS) (c : conn) :
    (∀ topic args t s, alookup server.subscribers t = some s →
      ∃ s', alookup (handleSubscribe server c topic args).1.subscribers t = some s')
    ∧ (∀ topic t s, alookup server.subscribers t = some s →
      ∃ s', alookup (handleUnSubscribe server c topic).1.subscribers t = some s')
    ∧ (∀ id t s, alookup server.subscribers t = some s →
      ∃ s', alookup (deleteConnection server id).subscribers t = some s')
    ∧ (∀ topic s, alookup server.subscribers topic = some s → c.id ∉ s →
      (handleUnSubscribe server c topic).2
        = Message.unsubscribeError topic ErrKind.notSubscribed) := by
  refine ⟨?_, ?_, ?_, ?_⟩
  · intro topic args t s h
    rcases subscribeScan_subscribers server c topic args server.subHandlers
      with he | he
    · refine ⟨s, ?_⟩
      simp only [handleSubscribe]
      rw [he]
      exact h
    · by_cases htt : topic = t
      · refine ⟨sinsert (subscribersOf server topic) c.id, ?_⟩
        simp only [handleSubscribe]
        rw [he, alookup_ainsert, if_pos htt]
      · refine ⟨s, ?_⟩
        simp only [handleSubscribe]
        rw [he, alookup_ainsert, if_neg htt]
        exact h
  · intro topic t s h
    simp only [handleUnSubscribe]
    exact unSubscribeScan_keeps_keys c.id topic server.subscribers t s h
  · intro id t s h
    refine ⟨s.filter (fun x => x ≠ id), ?_⟩
    simp only [deleteConnection]
    rw [alookup_map_filter, h]
    rfl
  · intro topic s h hm
    have h1 := unSubscribeScan_found_not_mem c.id topic server.subscribers s h hm
    simp [handleUnSubscribe, h1]

theorem subscriber_set_never_removed_witness :
    alookup demoWS.subscribers ("open.chat") = some ([] : List String)
    ∧ c1.id ∉ ([] : List String)
    ∧ (handleUnSubscribe demoWS c1 ("open.chat")).2
        = Message.unsubscribeError ("open.chat") ErrKind.notSubscribed :=
  ⟨rfl, by simp,
   (subscriber_set_never_removed demoWS c1).2.2.2 ("open.chat") [] rfl (by simp)⟩

end Wango
